import Mathlib

/-!
# GradeJournal synchronization core: a shallow embedding

This file embeds the data model and the synchronization functions of the
GradeJournal client (`src/app.js`, version 7, and the older variant bundled in
`src/unnamed/part_000`, version 6) and proves properties of its merge engine,
save pipeline, offline queue and roster operations.

Modelling conventions, used throughout:

* JavaScript objects become Lean structures.  A JS field that may be `undefined`
  or `null` is modelled as an `Option`, or by its canonical falsy default
  (`0` for numbers tested with `|| …`, `""` for strings, `[]` for arrays),
  matching how the code tests truthiness.
* Timestamp strings (`updatedAt`, `lastSync`, marker timestamps) are always
  produced by `new Date().toISOString()` and consumed via `new Date(s).getTime()`
  or `Date` comparison.  They are represented by their parsed value in
  milliseconds since the epoch (`Nat`); a missing timestamp is `none` and
  `new Date(x || 0)` maps it to `0`.  Valid timestamp strings are assumed
  (no `NaN` parses).
* The wall clock (`new Date()` and `Date.now()`) is passed as an explicit
  `now : Nat` argument.
* JS `Map`s built from entry lists keep, for a duplicated key, the position of
  the first occurrence and the value of the last; `Set`s deduplicate keeping
  first occurrences.  `dedupFirst` and the `mget*` lookups reproduce this.
* Asynchronous remote calls are modelled by an explicit environment of fetch
  outcomes (`Fetch`); a rejected promise (network failure) is `Fetch.throw`, a
  resolved response carrying a Supabase error object is `Fetch.fail`, and a
  successful response is `Fetch.rows`.
-/

namespace GradeJournal

/-- JS `x || d` on numbers modelled as `Nat` (`0` is the falsy value). -/
def jsOrNat (n d : Nat) : Nat := if n = 0 then d else n

/-- JS `s || d` on an optional string (`undefined`/`null`/`""` are falsy). -/
def jsOrStr (s : Option String) (d : String) : String :=
  match s with
  | none => d
  | some s => if s = "" then d else s

/-- `new Date(x || 0).getTime()` for a modelled timestamp: a missing
timestamp parses as epoch `0`. -/
def tms (t : Option Nat) : Nat := t.getD 0

/-- JS `String.prototype.includes`: substring test (for non-empty needles). -/
def strIncludes (s sub : String) : Bool := (s.splitOn sub).length > 1

/-- Deduplicate keeping the first occurrence of every element, as JS `Set`
iteration order does (`seen` accumulates the elements already emitted). -/
def dedupFirst {α : Type} [DecidableEq α] (seen : List α) : List α → List α
  | [] => []
  | x :: xs =>
    if x ∈ seen then dedupFirst seen xs else x :: dedupFirst (x :: seen) xs

/-- JS `Map.get` over an entry list: for a duplicated key, the value of the
last occurrence wins. -/
def jsMapGet {α β : Type} (key : α → β) [DecidableEq β] (xs : List α) (i : β) :
    Option α :=
  xs.reverse.find? (fun a => key a = i)

/-! ## Document store data model (`DB` in `src/app.js`) -/

/-- A student (created in `saveStudent` / `quickAddStudentToLesson`). -/
structure Student where
  id : Nat
  name : String
  phone : String
  email : String
  parentName : String
  parentPhone : String
  note : String
  updatedAt : Option Nat
  deriving DecidableEq, Repr

/-- A lesson.  `data` is the flat key-value map with synthesized
`att_<sid>` / `col_<cid>_<sid>` string keys; it is an entry list with
JS-object semantics (`dataGet` / `dataSet` below).  A legacy lesson may lack
`studentIds` (`none`); an empty list is a present-but-empty array. -/
structure Lesson where
  id : Nat
  topic : String
  date : String
  num : Nat
  mode : String
  studentIds : Option (List Nat)
  data : List (String × String)
  updatedAt : Option Nat
  deriving DecidableEq, Repr

/-- A grade column. -/
structure Column where
  id : Nat
  name : String
  ielts : Bool
  lessonId : Option Nat
  updatedAt : Option Nat
  deriving DecidableEq, Repr

/-- A classroom with its owned collections and child-id counters. -/
structure Classroom where
  id : String
  name : String
  subject : String
  teacher : String
  students : List Student
  lessons : List Lesson
  columns : List Column
  nextSid : Nat
  nextLid : Nat
  nextCid : Nat
  updatedAt : Option Nat
  deriving DecidableEq, Repr

/-- The export preferences (`DB.exportSettings`). -/
structure ExportSettings where
  colorH : Nat
  colorS : Nat
  colorL : Nat
  colorA : Nat
  logo : Option String
  logoName : Option String
  logoSize : Option Nat
  deriving DecidableEq, Repr

/-- The signed-in user (`DB.user`); only the fields the sync core reads. -/
structure UserInfo where
  id : String
  mode : String
  deriving DecidableEq, Repr

/-- A pending-change marker
(`{ timestamp: new Date().toISOString(), context: badge || 'unknown' }`). -/
structure PendingChange where
  timestamp : Nat
  context : String
  deriving DecidableEq, Repr

/-- The document store (the global `DB` object). -/
structure Store where
  classrooms : List Classroom
  nextId : Nat
  user : Option UserInfo
  lastSync : Option Nat
  syncStatus : String
  pendingChanges : List PendingChange
  exportSettings : Option ExportSettings
  gradeTemplates : List String
  deriving DecidableEq, Repr

/-- JS-object read on a lesson's `data` map. -/
def dataGet (data : List (String × String)) (k : String) : Option String :=
  (data.find? (fun p => p.1 = k)).map (·.2)

/-- JS-object write on a lesson's `data` map: replace the binding if the key
exists, otherwise append it. -/
def dataSet (data : List (String × String)) (k v : String) :
    List (String × String) :=
  if data.any (fun p => p.1 = k) then
    data.map (fun p => if p.1 = k then (k, v) else p)
  else data ++ [(k, v)]

/-! ## Merge engine (`mergeData` / `mergeArrayById`, `src/app.js` 88-126 and
`src/unnamed/part_000` 286-358) -/

/-- `mergeArrayById(local, remote)` from `src/app.js` lines 115-126 (the
`part_000` variant, lines 336-355, is the same algorithm): iterate the local
map's keys, keeping for a shared id whichever side's `updatedAt` is strictly
later (ties keep local), then append remote-only entries.  The JS function is
generic over objects with `id`/`updatedAt`; here it is parametrised by the two
field accessors. -/
def mergeArrayById {α : Type} (getId : α → Nat) (getUpd : α → Option Nat)
    (loc rem : List α) : List α :=
  let lkeys := dedupFirst [] (loc.map getId)
  let rkeys := dedupFirst [] (rem.map getId)
  (lkeys.filterMap (fun i =>
    match jsMapGet getId loc i, jsMapGet getId rem i with
    | some li, some ri =>
      some (if tms (getUpd ri) > tms (getUpd li) then ri else li)
    | some li, none => some li
    | none, _ => none)) ++
  (rkeys.filterMap (fun i =>
    if i ∈ loc.map getId then none else jsMapGet getId rem i))

/-- The classroom produced for an id present on both sides
(`src/app.js` lines 104-110): if remote is strictly newer, adopt its top-level
fields and deep-merge `students`/`lessons`; otherwise keep local wholesale. -/
def mergeClassroomPair (lc rc : Classroom) : Classroom :=
  if tms rc.updatedAt > tms lc.updatedAt then
    { rc with
      students := mergeArrayById Student.id Student.updatedAt lc.students rc.students
      lessons := mergeArrayById Lesson.id Lesson.updatedAt lc.lessons rc.lessons }
  else lc

/-- The merged classroom list of `mergeData` (`src/app.js` lines 97-111):
iterate the deduplicated union of both sides' classroom ids in JS `Set` order
(local ids first). -/
def mergeClassrooms (loc rem : List Classroom) : List Classroom :=
  let lkeys := dedupFirst [] (loc.map Classroom.id)
  let rkeys := dedupFirst [] (rem.map Classroom.id)
  (dedupFirst [] (lkeys ++ rkeys)).filterMap (fun i =>
    match jsMapGet Classroom.id loc i, jsMapGet Classroom.id rem i with
    | some lc, none => some lc
    | none, some rc => some rc
    | some lc, some rc => some (mergeClassroomPair lc rc)
    | none, none => none)

/-- `mergeData(local, remote)` from `src/app.js` lines 88-113 (v7).  `remote`
is `none` when the pull produced no object; `now` is the wall clock read by
`new Date().toISOString()` when stamping `lastSync`. -/
def mergeData (loc : Store) (rem : Option Store) (now : Nat) : Store :=
  match rem with
  | none => loc
  | some rem =>
    { loc with
      classrooms := mergeClassrooms loc.classrooms rem.classrooms
      nextId := max (jsOrNat loc.nextId 1) (jsOrNat rem.nextId 1)
      lastSync := some now
      exportSettings :=
        match rem.exportSettings with
        | some e => some e
        | none => loc.exportSettings }

/-- `mergeData` from `src/unnamed/part_000` lines 286-333 (v6): identical to
the v7 variant except that it has no `exportSettings` override (the spread of
`local` keeps local's settings). -/
def mergeData_v6 (loc : Store) (rem : Option Store) (now : Nat) : Store :=
  match rem with
  | none => loc
  | some rem =>
    { loc with
      classrooms := mergeClassrooms loc.classrooms rem.classrooms
      nextId := max (jsOrNat loc.nextId 1) (jsOrNat rem.nextId 1)
      lastSync := some now }

/-! ## Offline queue and save pipeline
(`queuePendingChanges` / `saveDB`, `src/app.js` 221-226, 357-373 and
`src/unnamed/part_000` 543-550, 1005-1046) -/

/-- `queuePendingChanges(badge)` (identical in both variants): append one
timestamped marker with context `badge || 'unknown'` and drop the oldest
entry once the length passes 50.  An absent/empty `badge` is modelled as
`""` (falsy).  The trailing `saveToLocalStorage()` does not change the
store. -/
def queuePendingChanges (db : Store) (badge : String) (now : Nat) : Store :=
  let q := db.pendingChanges ++
    [{ timestamp := now, context := if badge = "" then "unknown" else badge }]
  { db with pendingChanges := if q.length > 50 then q.tail else q }

/-- Enqueue a list of `(now, badge)` markers in order. -/
def enqueueAll (db : Store) (items : List (Nat × String)) : Store :=
  items.foldl (fun d it => queuePendingChanges d it.2 it.1) db

/-- `DB.user?.mode === 'supabase' && DB.user?.id` (an empty id string is
falsy). -/
def userIsSupabaseWithId (db : Store) : Bool :=
  match db.user with
  | none => false
  | some u => u.mode = "supabase" ∧ u.id ≠ ""

/-- `DB.user?.mode === 'supabase'`. -/
def userModeSupabase (db : Store) : Bool :=
  match db.user with
  | none => false
  | some u => u.mode = "supabase"

/-- The runtime conditions read by `saveDB`'s save operation:
`navigator.onLine`, whether the `supabase` client is non-null, and whether
`saveUserDataToSupabase` resolves (rather than throwing). -/
structure SaveEnv where
  online : Bool
  supabaseReady : Bool
  cloudSaveOk : Bool
  deriving DecidableEq, Repr

/-- The save operation triggered by `saveDB(badge, immediate)` in
`src/app.js` lines 359-370 (v7), run either immediately or after the 150 ms
debounce.  Returns the updated store and whether a remote push was attempted.
`saveToLocalStorage()` does not change the store.  With a single invocation
the save queue's last badge is this call's badge. -/
def saveOperation (env : SaveEnv) (db : Store) (badge : String) (now : Nat) :
    Store × Bool :=
  if env.online ∧ env.supabaseReady ∧ userIsSupabaseWithId db then
    if env.cloudSaveOk then ({ db with pendingChanges := [] }, true)
    else (queuePendingChanges db badge now, true)
  else (db, false)

/-- The save operation of the `part_000` variant (`src/unnamed/part_000`
lines 1009-1037): identical to v7 except that, when the online-and-ready
conjunction fails while the user is remote-backed, it enqueues a
pending-change marker instead of doing nothing. -/
def saveOperation_v6 (env : SaveEnv) (db : Store) (badge : String) (now : Nat) :
    Store × Bool :=
  if env.online ∧ env.supabaseReady ∧ userIsSupabaseWithId db then
    if env.cloudSaveOk then ({ db with pendingChanges := [] }, true)
    else (queuePendingChanges db badge now, true)
  else if userModeSupabase db then (queuePendingChanges db badge now, false)
  else (db, false)

/-! ## Remote push (`saveUserDataToSupabase`, `src/app.js` 336-349 and
`src/unnamed/part_000` 783-865) -/

/-- A row of the remote `classrooms` table.  `updated_at` is `none` when the
write did not set it (the v6 insert omits it). -/
structure CloudClassroomRow where
  user_id : String
  id : String
  name : String
  subject : String
  teacher_name : String
  next_student_id : Nat
  next_lesson_id : Nat
  next_column_id : Nat
  updated_at : Option Nat
  deriving DecidableEq, Repr

/-- The row upserted for classroom `c` by the v7 push (`src/app.js` line 341);
`updated_at` is stamped with the wall clock. -/
def classroomRow (uid : String) (c : Classroom) (now : Nat) : CloudClassroomRow :=
  { user_id := uid, id := c.id, name := c.name, subject := c.subject,
    teacher_name := c.teacher, next_student_id := c.nextSid,
    next_lesson_id := c.nextLid, next_column_id := c.nextCid,
    updated_at := some now }

/-- Supabase `upsert` on the `classrooms` table, keyed by the primary key
`id`: replace the existing row with that id, or insert a new one. -/
def upsertRow (table : List CloudClassroomRow) (r : CloudClassroomRow) :
    List CloudClassroomRow :=
  if table.any (fun x => x.id = r.id) then
    table.map (fun x => if x.id = r.id then r else x)
  else table ++ [r]

/-- Outcome of one remote upsert call, as distinguished by the v7 error
handling: success, an error whose message includes `does not exist`
(which makes the whole function return early), or any other error
(collected in `errors`, loop continues). -/
inductive UpsertOutcome where
  | ok
  | errMissing
  | errOther
  deriving DecidableEq, Repr

/-- The classroom loop of the v7 push (`src/app.js` lines 339-347): one
upsert per classroom in store order; a `does not exist` error returns early,
any other error is collected and skipped. -/
def pushClassrooms (env : String → UpsertOutcome) (uid : String) (now : Nat) :
    List Classroom → List CloudClassroomRow → List CloudClassroomRow
  | [], table => table
  | c :: rest, table =>
    match env c.id with
    | .ok => pushClassrooms env uid now rest (upsertRow table (classroomRow uid c now))
    | .errMissing => table
    | .errOther => pushClassrooms env uid now rest table

/-- `saveUserDataToSupabase(userId)` from `src/app.js` lines 336-349 (v7),
restricted to its effect on the remote `classrooms` table: throws only when
the supabase client is null, otherwise runs the upsert loop. -/
def saveUserDataToSupabase (supabaseReady : Bool) (env : String → UpsertOutcome)
    (db : Store) (uid : String) (now : Nat) (table : List CloudClassroomRow) :
    Except String (List CloudClassroomRow) :=
  if supabaseReady then .ok (pushClassrooms env uid now db.classrooms table)
  else .error "Supabase not initialized"

/-- `saveUserDataToSupabase` from `src/unnamed/part_000` lines 783-865 (v6),
restricted to its effect on the remote `classrooms` table and to the path
where the queued operations succeed: it first deletes every classroom row of
the user, then inserts one fresh row per classroom whose id is assigned by
the remote (`idGen`, indexed by insertion order); the insert carries no
`updated_at`. -/
def saveUserDataToSupabase_v6 (idGen : Nat → String) (db : Store) (uid : String)
    (table : List CloudClassroomRow) : List CloudClassroomRow :=
  let afterDelete := table.filter (fun r => r.user_id ≠ uid)
  afterDelete ++ db.classrooms.enum.map (fun p =>
    { user_id := uid, id := idGen p.1, name := p.2.name, subject := p.2.subject,
      teacher_name := p.2.teacher, next_student_id := p.2.nextSid,
      next_lesson_id := p.2.nextLid, next_column_id := p.2.nextCid,
      updated_at := none })

/-! ## Remote pull (`loadUserDataFromSupabase`, `src/app.js` 263-334 and
`src/unnamed/part_000` 600-778) -/

/-- Outcome of one awaited supabase query: a rejected promise (network
failure, the wrapped `fetch` throws), a resolved response carrying an error
object with a message, or a successful response carrying data. -/
inductive Fetch (α : Type) where
  | throw (msg : String)
  | fail (msg : String)
  | rows (data : α)
  deriving DecidableEq, Repr

/-- Awaiting a query: rejection propagates as an exception; otherwise the
response is a pair of optional error message and optional data. -/
def Fetch.toExcept {α : Type} : Fetch α → Except String (Option String × Option α)
  | .throw m => .error m
  | .fail m => .ok (some m, none)
  | .rows d => .ok (none, some d)

/-- A fetched row of the remote `classrooms` table (`c.subject || ''` etc.
test truthiness, so the nullable columns are `Option`). -/
structure ClassroomRowR where
  id : String
  name : String
  subject : Option String
  teacher_name : Option String
  next_student_id : Nat
  next_lesson_id : Nat
  next_column_id : Nat
  updated_at : Option Nat
  deriving DecidableEq, Repr

/-- A fetched `students` row. -/
structure StudentRow where
  classroom_id : String
  student_number : Nat
  name : String
  phone : Option String
  email : Option String
  parent_name : Option String
  parent_phone : Option String
  notes : Option String
  updated_at : Option Nat
  deriving DecidableEq, Repr

/-- A fetched `lessons` row (`id` is the remote row id used to scope grades
and attendance; `lesson_number` is the client-visible id). -/
structure LessonRow where
  id : Nat
  classroom_id : String
  lesson_number : Nat
  title : String
  lesson_date : String
  mode : String
  student_ids : Option (List Nat)
  updated_at : Option Nat
  deriving DecidableEq, Repr

/-- A fetched `columns` row. -/
structure ColumnRow where
  classroom_id : String
  column_number : Nat
  name : String
  ielts : Bool
  lesson_id : Option Nat
  deriving DecidableEq, Repr

/-- A fetched `grades` row; `column_id = 0` models a null/absent column id
(`if (g.column_id)` is a truthiness test). -/
structure GradeRow where
  lesson_id : Nat
  student_id : Nat
  column_id : Nat
  grade : String
  deriving DecidableEq, Repr

/-- A fetched `attendance` row. -/
structure AttRow where
  lesson_id : Nat
  student_id : Nat
  status : String
  deriving DecidableEq, Repr

/-- A fetched `export_settings` row. -/
structure SettingsRow where
  color : Option (Nat × Nat × Nat × Nat)
  logo_data : Option String
  logo_name : Option String
  logo_size : Option Nat
  deriving DecidableEq, Repr

/-- The environment of remote responses a single pull consumes.  `grades` and
`attendance` are indexed by the queried batch of lesson ids. -/
structure PullEnv where
  checkClassrooms : Fetch (List ClassroomRowR)
  classrooms : Fetch (List ClassroomRowR)
  settings : Fetch (Option SettingsRow)
  students : Fetch (List StudentRow)
  lessons : Fetch (List LessonRow)
  columns : Fetch (List ColumnRow)
  grades : List Nat → Fetch (List GradeRow)
  attendance : List Nat → Fetch (List AttRow)

/-- `checkTableExists('classrooms')` (`src/app.js` lines 263-268): any thrown
error yields `false`; a response error means "missing" only when its message
includes both `relation` and `does not exist`. -/
def checkTableExists (f : Fetch (List ClassroomRowR)) : Bool :=
  match f with
  | .throw _ => false
  | .fail m => !(strIncludes m "relation" && strIncludes m "does not exist")
  | .rows _ => true

/-- `BATCH_SIZE` (`src/app.js` line 9). -/
def BATCH_SIZE : Nat := 25

/-- The batches visited by `for (let i = 0; i < lessonIds.length; i += BATCH_SIZE)`
with `lessonIds.slice(i, i + BATCH_SIZE)`. -/
def batchesOf (ids : List Nat) : List (List Nat) :=
  match ids with
  | [] => []
  | x :: xs =>
    (x :: xs).take BATCH_SIZE :: batchesOf ((x :: xs).drop BATCH_SIZE)
termination_by ids.length
decreasing_by simp [List.length_drop, BATCH_SIZE]; omega

/-- The batched grades/attendance loop of the v7 pull (`src/app.js` lines
297-305): response errors are ignored (`gb.data || []`), only thrown
(network) errors escape. -/
def fetchBatches (g : List Nat → Fetch (List GradeRow))
    (a : List Nat → Fetch (List AttRow)) :
    List (List Nat) → Except String (List GradeRow × List AttRow)
  | [] => .ok ([], [])
  | b :: rest => do
    let gb ← (g b).toExcept
    let ab ← (a b).toExcept
    let (gs, ats) ← fetchBatches g a rest
    .ok ((gb.2.getD []) ++ gs, (ab.2.getD []) ++ ats)

/-- The batched loop of the v6 pull (`src/unnamed/part_000` lines 661-675):
identical except that a response error on either query is thrown. -/
def fetchBatches_v6 (g : List Nat → Fetch (List GradeRow))
    (a : List Nat → Fetch (List AttRow)) :
    List (List Nat) → Except String (List GradeRow × List AttRow)
  | [] => .ok ([], [])
  | b :: rest => do
    let gb ← (g b).toExcept
    let ab ← (a b).toExcept
    match gb.1, ab.1 with
    | some m, _ => .error m
    | none, some m => .error m
    | none, none => do
      let (gs, ats) ← fetchBatches_v6 g a rest
      .ok ((gb.2.getD []) ++ gs, (ab.2.getD []) ++ ats)

/-- The flat `data` map folded back from the grade and attendance rows of one
lesson (`src/app.js` lines 313-315), using the synthetic key scheme. -/
def buildLessonData (grades : List GradeRow) (ats : List AttRow)
    (l : LessonRow) : List (String × String) :=
  let withGrades := (grades.filter (fun g => g.lesson_id = l.id)).foldl
    (fun d g =>
      if g.column_id ≠ 0 then
        dataSet d ("col_" ++ toString g.column_id ++ "_" ++ toString g.student_id) g.grade
      else d) []
  (ats.filter (fun a => a.lesson_id = l.id)).foldl
    (fun d a => dataSet d ("att_" ++ toString a.student_id) a.status) withGrades

/-- The lesson object denormalized from a `lessons` row (`src/app.js`
line 316). -/
def buildLesson (grades : List GradeRow) (ats : List AttRow) (l : LessonRow) :
    Lesson :=
  { id := l.lesson_number, topic := l.title, date := l.lesson_date,
    num := l.lesson_number, mode := l.mode,
    studentIds := some (l.student_ids.getD []),
    data := buildLessonData grades ats l, updatedAt := l.updated_at }

/-- The classroom object denormalized from its rows (`src/app.js` lines
310-325).  Grouping rows by `classroom_id` into maps and reading them back
preserves row order, so it is a filter here. -/
def buildClassroom (studentRows : List StudentRow) (lessonRows : List LessonRow)
    (columnRows : List ColumnRow) (grades : List GradeRow) (ats : List AttRow)
    (c : ClassroomRowR) : Classroom :=
  let classroomLessons := lessonRows.filter (fun l => l.classroom_id = c.id)
  { id := c.id, name := c.name, subject := jsOrStr c.subject "",
    teacher := jsOrStr c.teacher_name "",
    students := (studentRows.filter (fun s => s.classroom_id = c.id)).map
      (fun s => { id := s.student_number, name := s.name,
                  phone := jsOrStr s.phone "", email := jsOrStr s.email "",
                  parentName := jsOrStr s.parent_name "",
                  parentPhone := jsOrStr s.parent_phone "",
                  note := jsOrStr s.notes "", updatedAt := s.updated_at }),
    lessons := classroomLessons.map (buildLesson grades ats),
    columns := (columnRows.filter (fun col => col.classroom_id = c.id)).map
      (fun col =>
        { id := col.column_number, name := col.name, ielts := col.ielts,
          lessonId :=
            match col.lesson_id with
            | none => none
            | some lid =>
              (classroomLessons.find? (fun l => l.id = lid)).map (·.lesson_number),
          updatedAt := none }),
    nextSid := c.next_student_id, nextLid := c.next_lesson_id,
    nextCid := c.next_column_id, updatedAt := c.updated_at }

/-- `parseInt(c.id.split('-')[0]) || 0` (ids carry no sign or leading
whitespace): the leading digit run of the id's first `-`-separated segment,
`0` when it parses to `NaN` or `0`. -/
def leadingNat (s : String) : Nat :=
  (((s.takeWhile (fun ch => ch ≠ '-')).takeWhile Char.isDigit).toNat?).getD 0

/-- The bare `{ classrooms: [] }` object returned on degraded pulls, with
every absent JS field at its falsy default. -/
def emptyRemote : Store :=
  { classrooms := [], nextId := 0, user := none, lastSync := none,
    syncStatus := "", pendingChanges := [], exportSettings := none,
    gradeTemplates := [] }

/-- The `try` body of the v7 `loadUserDataFromSupabase` (`src/app.js` lines
271-328).  Response errors on the students/lessons/columns/grades/attendance
queries are ignored (`data || []`); only the classrooms query's response
error is inspected.  Awaits of a `Promise.all` are modelled left first. -/
def loadBody (db : Store) (env : PullEnv) : Except String Store := do
  if !checkTableExists env.checkClassrooms then return emptyRemote
  let cres ← env.classrooms.toExcept
  let sres ← env.settings.toExcept
  match cres.1 with
  | some msg =>
    if strIncludes msg "does not exist" then return emptyRemote
    else .error msg
  | none =>
    let cdata := cres.2.getD []
    if cdata.length = 0 then return emptyRemote
    let stu ← env.students.toExcept
    let les ← env.lessons.toExcept
    let col ← env.columns.toExcept
    let lessonRows := les.2.getD []
    let lessonIds := lessonRows.map (fun l => l.id)
    let (grades, ats) ← fetchBatches env.grades env.attendance (batchesOf lessonIds)
    let cloudClassrooms := cdata.map
      (buildClassroom (stu.2.getD []) lessonRows (col.2.getD []) grades ats)
    let exportSettings :=
      match sres.2.bind id with
      | some row =>
        let c := row.color.getD (30, 60, 50, 100)
        some { colorH := c.1, colorS := c.2.1, colorL := c.2.2.1,
               colorA := c.2.2.2, logo := row.logo_data,
               logoName := row.logo_name, logoSize := row.logo_size }
      | none => db.exportSettings
    return { emptyRemote with
      classrooms := cloudClassrooms
      exportSettings := exportSettings
      nextId := ((cloudClassrooms.map (fun c => leadingNat c.id)).foldl max 0) + 1 }

/-- `loadUserDataFromSupabase(userId)` from `src/app.js` lines 270-334 (v7):
the whole body is wrapped in a `try`/`catch` whose handler returns
`{ classrooms: [] }`, so every thrown error degrades to an empty remote and
nothing propagates.  `db` is the global `DB` (read for the default export
settings). -/
def loadUserDataFromSupabase (db : Store) (env : PullEnv) : Store :=
  match loadBody db env with
  | .ok r => r
  | .error _ => emptyRemote

/-- `loadUserDataFromSupabase` from `src/unnamed/part_000` lines 600-778 (v6):
no `checkTableExists` probe, every response error is thrown
(`if (x.error) throw x.error`), and the `catch` rethrows, so every error
propagates to the caller. -/
def loadUserDataFromSupabase_v6 (db : Store) (env : PullEnv) :
    Except String Store := do
  let cres ← env.classrooms.toExcept
  let sres ← env.settings.toExcept
  match cres.1 with
  | some msg => .error msg
  | none =>
    let cdata := cres.2.getD []
    if cdata.length = 0 then return emptyRemote
    let stu ← env.students.toExcept
    let les ← env.lessons.toExcept
    let col ← env.columns.toExcept
    match stu.1, les.1, col.1 with
    | some m, _, _ => .error m
    | none, some m, _ => .error m
    | none, none, some m => .error m
    | none, none, none =>
      let lessonRows := les.2.getD []
      let lessonIds := lessonRows.map (fun l => l.id)
      let (grades, ats) ← fetchBatches_v6 env.grades env.attendance (batchesOf lessonIds)
      let cloudClassrooms := cdata.map
        (buildClassroom (stu.2.getD []) lessonRows (col.2.getD []) grades ats)
      let exportSettings :=
        match sres.2.bind id with
        | some row =>
          let c := row.color.getD (30, 60, 50, 100)
          some { colorH := c.1, colorS := c.2.1, colorL := c.2.2.1,
                 colorA := c.2.2.2, logo := row.logo_data,
                 logoName := row.logo_name, logoSize := row.logo_size }
        | none => db.exportSettings
      return { emptyRemote with
        classrooms := cloudClassrooms
        exportSettings := exportSettings
        nextId := ((cloudClassrooms.map (fun c => leadingNat c.id)).foldl max 0) + 1 }

/-! ## Roster operations and attendance statistics
(`createClassroom` 601-620, `saveStudent` 685-727, `saveLesson` 901-929,
`studentStats` 729-741, `setAtt` 1183-1192, `delStudentConfirm` 786-797,
all in `src/app.js`) -/

/-- Replace the first element satisfying `p`. -/
def updFirstBy {α : Type} (p : α → Bool) (f : α → α) : List α → List α
  | [] => []
  | x :: xs => if p x then f x :: xs else x :: updFirstBy p f xs

/-- Replace the last element satisfying `p` — the object the secondary index
(`rebuildIndex` keeps the last entry per id) aliases, hence the one an
index-mediated in-place mutation updates. -/
def updLastBy {α : Type} (p : α → Bool) (f : α → α) (xs : List α) : List α :=
  (updFirstBy p f xs.reverse).reverse

/-- `createClassroom()` (`src/app.js` lines 601-620): an empty name is
rejected before mutating the store; the generated composite id is the `id`
argument here. -/
def createClassroom (db : Store) (id name subject teacher : String)
    (now : Nat) : Store :=
  if name = "" then db
  else
    { db with classrooms := db.classrooms ++
      [{ id := id, name := name, subject := subject, teacher := teacher,
         students := [], columns := [], lessons := [],
         nextSid := 1, nextLid := 1, nextCid := 1, updatedAt := some now }] }

/-- The add path of `saveStudent()` (`src/app.js` lines 685-719, with
`editSid === null`): reject an empty name, else push a student with id
`c.nextSid++` and a fresh `updatedAt`. -/
def addStudent (c : Classroom)
    (name phone email parentName parentPhone note : String) (now : Nat) :
    Classroom :=
  if name = "" then c
  else
    { c with
      nextSid := c.nextSid + 1
      students := c.students ++
        [{ id := c.nextSid, name := name, phone := phone, email := email,
           parentName := parentName, parentPhone := parentPhone, note := note,
           updatedAt := some now }] }

/-- `IELTS_SECTIONS` (`src/app.js` line 386). -/
def IELTS_SECTIONS : List String :=
  ["Listening", "Reading", "Writing", "Speaking", "Overall Band"]

/-- `saveLesson()` (`src/app.js` lines 901-929): reject an empty topic; the
lesson id is `c.nextLid++`, `num` is the parsed input or `lessons.length + 1`,
`studentIds` snapshots the current roster, `data` starts empty; in `ielts`
mode one column per non-`Overall Band` section is appended with ids
`c.nextCid++`. -/
def saveLesson (c : Classroom) (topic date : String) (numInput : Option Nat)
    (mode : String) (now : Nat) : Classroom :=
  if topic = "" then c
  else
    let num :=
      match numInput with
      | some n => jsOrNat n (c.lessons.length + 1)
      | none => c.lessons.length + 1
    let lesson : Lesson :=
      { id := c.nextLid, topic := topic, date := date, num := num,
        mode := mode, studentIds := some (c.students.map (fun s => s.id)),
        data := [], updatedAt := some now }
    let step := fun (acc : List Column × Nat) (sec : String) =>
      if sec ≠ "Overall Band" then
        (acc.1 ++ [{ id := acc.2, name := sec, ielts := true,
                     lessonId := some lesson.id, updatedAt := some now }],
         acc.2 + 1)
      else acc
    let (newCols, nextCid) :=
      if mode = "ielts" then IELTS_SECTIONS.foldl step ([], c.nextCid)
      else ([], c.nextCid)
    { c with
      columns := c.columns ++ newCols
      nextCid := nextCid
      lessons := c.lessons ++ [lesson]
      nextLid := c.nextLid + 1 }

/-- The attendance value of student `sid` on lesson `l`:
`(l.data || {})['att_' + sid] || 'present'`. -/
def attVal (l : Lesson) (sid : Nat) : String :=
  jsOrStr (dataGet l.data ("att_" ++ toString sid)) "present"

/-- Whether a lesson counts for a student:
`l.studentIds && !l.studentIds.includes(sid)` skips it (an absent
`studentIds` includes everyone; an empty array is a truthy array). -/
def lessonApplies (l : Lesson) (sid : Nat) : Bool :=
  match l.studentIds with
  | none => true
  | some ids => sid ∈ ids

/-- The result record of `studentStats`. -/
structure Stats where
  present : Nat
  late : Nat
  absent : Nat
  attended : Nat
  total : Nat
  deriving DecidableEq, Repr

/-- `studentStats(sid)` (`src/app.js` lines 729-741) on the current
classroom: count each applicable lesson's attendance value (anything other
than `present`/`late` counts as absent), `attended = present + late`,
`total` the number of applicable lessons. -/
def studentStats (c : Classroom) (sid : Nat) : Stats :=
  let counts := c.lessons.foldl
    (fun (acc : Nat × Nat × Nat) l =>
      if lessonApplies l sid then
        let v := attVal l sid
        if v = "present" then (acc.1 + 1, acc.2.1, acc.2.2)
        else if v = "late" then (acc.1, acc.2.1 + 1, acc.2.2)
        else (acc.1, acc.2.1, acc.2.2 + 1)
      else acc) (0, 0, 0)
  { present := counts.1, late := counts.2.1, absent := counts.2.2,
    attended := counts.1 + counts.2.1,
    total := (c.lessons.filter (fun l => lessonApplies l sid)).length }

/-- `setAtt(sid, status)` (`src/app.js` lines 1183-1192) on the current
classroom: mutate the index-aliased lesson `lid`, writing the `att_` key and
stamping `updatedAt`; a missing lesson aborts. -/
def setAtt (c : Classroom) (lid sid : Nat) (status : String) (now : Nat) :
    Classroom :=
  match jsMapGet Lesson.id c.lessons lid with
  | none => c
  | some _ =>
    { c with lessons :=
        (updLastBy (fun l => l.id = lid)
          (fun l => { l with
            data := dataSet l.data ("att_" ++ toString sid) status
            updatedAt := some now }) c.lessons) }

/-- The confirmed branch of `delStudentConfirm(sid)` (`src/app.js` lines
786-797) on current classroom `cid`: abort when the index finds no such
student, else replace the aliased classroom's `students` with the list
filtered by id. -/
def delStudentConfirm (db : Store) (cid : String) (sid : Nat) : Store :=
  match jsMapGet Classroom.id db.classrooms cid with
  | none => db
  | some c =>
    match jsMapGet Student.id c.students sid with
    | none => db
    | some _ =>
      { db with classrooms :=
          (updLastBy (fun cc => cc.id = cid)
            (fun cc => { cc with
              students := cc.students.filter (fun st => st.id ≠ sid) })
            db.classrooms) }

/-! ## Concrete sample data used by witnesses and counterexamples -/

/-- The default `DB` literal (`src/app.js` lines 42-48). -/
def initialStore : Store :=
  { classrooms := [], nextId := 1, user := none, lastSync := none,
    syncStatus := "idle", pendingChanges := [],
    exportSettings := some { colorH := 30, colorS := 60, colorL := 50,
                             colorA := 100, logo := none, logoName := none,
                             logoSize := none },
    gradeTemplates := [] }

/-- A sample student, id 1. -/
def sampleStudent : Student :=
  { id := 1, name := "Ada", phone := "", email := "", parentName := "",
    parentPhone := "", note := "", updatedAt := some 10 }

/-- A sample classroom with `updatedAt` 200 and no children. -/
def classroomA : Classroom :=
  { id := "c1", name := "A", subject := "", teacher := "", students := [],
    lessons := [], columns := [], nextSid := 2, nextLid := 1, nextCid := 1,
    updatedAt := some 200 }

/-- The same classroom id with an older `updatedAt` and one student. -/
def classroomB : Classroom :=
  { classroomA with updatedAt := some 100, students := [sampleStudent] }

/-- A local store holding `classroomA`. -/
def storeA : Store :=
  { classrooms := [classroomA], nextId := 1, user := none, lastSync := some 5,
    syncStatus := "idle", pendingChanges := [], exportSettings := none,
    gradeTemplates := [] }

/-- A remote store holding `classroomB`. -/
def storeB : Store := { storeA with classrooms := [classroomB] }

/-- `storeA` with a signed-in remote-backed user. -/
def storeWithUser : Store :=
  { storeA with user := some { id := "u", mode := "supabase" } }

/-- A pre-existing remote classroom row of user `u`. -/
def sampleRow : CloudClassroomRow :=
  { user_id := "u", id := "r1", name := "old", subject := "",
    teacher_name := "", next_student_id := 1, next_lesson_id := 1,
    next_column_id := 1, updated_at := some 1 }

/-- An upsert environment where every call succeeds. -/
def okEnv : String → UpsertOutcome := fun _ => .ok

/-- A remote-assigned id generator for the v6 insert path. -/
def uuidGen : Nat → String := fun n => "uuid" ++ toString n

/-- A pull environment whose classrooms query is a transient network failure
(the wrapped fetch rejects with the client module's message). -/
def envNetworkDown : PullEnv :=
  { checkClassrooms := .rows [],
    classrooms := .throw "Network error - please check your connection",
    settings := .rows none, students := .rows [], lessons := .rows [],
    columns := .rows [], grades := fun _ => .rows [],
    attendance := fun _ => .rows [] }

/-- A pull environment whose classrooms query reports a missing relation. -/
def envSchemaMissing : PullEnv :=
  { envNetworkDown with
    checkClassrooms := .rows []
    classrooms := .fail "relation classrooms does not exist" }

/-- The runtime state `saveDB` sees while offline. -/
def envOffline : SaveEnv :=
  { online := false, supabaseReady := true, cloudSaveOk := true }

/-- Sixty pending-change enqueue inputs with timestamps `0..59`. -/
def sixtyItems : List (Nat × String) :=
  (List.range 60).map (fun i => (i, "c"))

/-- The marker built from one enqueue input. -/
def mkMarker (it : Nat × String) : PendingChange :=
  { timestamp := it.1, context := if it.2 = "" then "unknown" else it.2 }

/-- The last `k` elements of a list. -/
def lastN {α : Type} (k : Nat) (l : List α) : List α := l.drop (l.length - k)

/-- A copy of `sampleStudent` with a strictly later `updatedAt`. -/
def sampleStudentNewer : Student := { sampleStudent with updatedAt := some 20 }

/-- A lesson of student 1 carrying an attendance cell and a grade cell. -/
def sampleLesson : Lesson :=
  { id := 1, topic := "t", date := "2024-03-01", num := 1, mode := "standard",
    studentIds := some [1], data := [("att_1", "absent"), ("col_2_1", "90")],
    updatedAt := some 3 }

/-- A classroom holding student 1 and `sampleLesson`. -/
def classroomD : Classroom :=
  { classroomA with students := [sampleStudent], lessons := [sampleLesson] }

/-- A two-classroom store for the student-deletion frame claim. -/
def storeDel : Store :=
  { storeA with classrooms := [classroomD, { classroomA with id := "c2" }] }

/-! ## Helper lemmas -/

theorem mem_dedupFirst {α : Type} [DecidableEq α] (seen l : List α) (a : α) :
    a ∈ dedupFirst seen l ↔ a ∈ l ∧ a ∉ seen := by
  induction l generalizing seen with
  | nil => simp [dedupFirst]
  | cons x xs ih =>
    by_cases hx : x ∈ seen
    · simp only [dedupFirst, if_pos hx, ih]
      constructor
      · rintro ⟨h1, h2⟩; exact ⟨List.mem_cons_of_mem _ h1, h2⟩
      · rintro ⟨h1, h2⟩
        rcases List.mem_cons.mp h1 with rfl | h1
        · exact absurd hx h2
        · exact ⟨h1, h2⟩
    · simp only [dedupFirst, if_neg hx, List.mem_cons, ih]
      constructor
      · rintro (rfl | ⟨h1, h2⟩)
        · exact ⟨Or.inl rfl, hx⟩
        · exact ⟨Or.inr h1, fun hs => h2 (Or.inr hs)⟩
      · rintro ⟨rfl | h1, h2⟩
        · exact Or.inl rfl
        · by_cases hax : a = x
          · exact Or.inl hax
          · exact Or.inr ⟨h1, by simp [List.mem_cons, hax, h2]⟩

theorem dedupFirst_eq_self {α : Type} [DecidableEq α] (seen l : List α)
    (hnd : l.Nodup) (hdisj : ∀ a ∈ l, a ∉ seen) :
    dedupFirst seen l = l := by
  induction l generalizing seen with
  | nil => rfl
  | cons x xs ih =>
    have hx : x ∉ seen := hdisj x (by simp)
    simp only [dedupFirst, if_neg hx]
    congr 1
    apply ih _ hnd.of_cons
    intro a ha
    simp only [List.mem_cons, not_or]
    refine ⟨fun h => ?_, hdisj a (List.mem_cons_of_mem _ ha)⟩
    subst h
    exact (List.nodup_cons.mp hnd).1 ha

theorem jsMapGet_key {α β : Type} [DecidableEq β] (key : α → β) (xs : List α)
    (i : β) (a : α) (h : jsMapGet key xs i = some a) : key a = i := by
  have := List.find?_some h
  simpa using this

theorem jsMapGet_mem {α β : Type} [DecidableEq β] (key : α → β) (xs : List α)
    (i : β) (a : α) (h : jsMapGet key xs i = some a) : a ∈ xs := by
  have := List.mem_of_find?_eq_some h
  exact List.mem_reverse.mp this

theorem jsMapGet_isSome {α β : Type} [DecidableEq β] (key : α → β)
    (xs : List α) (i : β) (h : i ∈ xs.map key) :
    ∃ a, jsMapGet key xs i = some a := by
  rcases List.mem_map.mp h with ⟨x, hx, rfl⟩
  have hx' : x ∈ xs.reverse := List.mem_reverse.mpr hx
  have : (xs.reverse.find? (fun a => key a = key x)).isSome := by
    rw [List.find?_isSome]
    exact ⟨x, hx', by simp⟩
  rcases Option.isSome_iff_exists.mp this with ⟨a, ha⟩
  exact ⟨a, ha⟩

theorem jsMapGet_none {α β : Type} [DecidableEq β] (key : α → β)
    (xs : List α) (i : β) (h : i ∉ xs.map key) :
    jsMapGet key xs i = none := by
  rw [jsMapGet, List.find?_eq_none]
  intro x hx
  simp only [decide_eq_true_eq]
  intro hk
  exact h (List.mem_map.mpr ⟨x, List.mem_reverse.mp hx, hk⟩)

theorem jsMapGet_nodup {α β : Type} [DecidableEq β] (key : α → β)
    (xs : List α) (a : α) (hnd : (xs.map key).Nodup) (ha : a ∈ xs) :
    jsMapGet key xs (key a) = some a := by
  rcases jsMapGet_isSome key xs (key a) (List.mem_map_of_mem key ha) with ⟨b, hb⟩
  have hkb : key b = key a := jsMapGet_key key xs (key a) b hb
  have hmb : b ∈ xs := jsMapGet_mem key xs (key a) b hb
  have : b = a := List.inj_on_of_nodup_map hnd hmb ha hkb
  rw [hb, this]

theorem filterMap_map_self {α β : Type} (f : α → β) (g : β → Option α)
    (l : List α) (h : ∀ a ∈ l, g (f a) = some a) :
    (l.map f).filterMap g = l := by
  induction l with
  | nil => rfl
  | cons x xs ih =>
    simp only [List.map_cons, List.filterMap_cons, h x (by simp)]
    rw [ih (fun a ha => h a (List.mem_cons_of_mem _ ha))]

theorem mergeClassroomPair_id (lc rc : Classroom) (i : String)
    (h1 : lc.id = i) (h2 : rc.id = i) : (mergeClassroomPair lc rc).id = i := by
  rw [mergeClassroomPair]
  split <;> simp [h1, h2]

theorem mergeClassroomPair_self (c : Classroom) : mergeClassroomPair c c = c := by
  rw [mergeClassroomPair]
  split
  · omega
  · rfl

theorem dedupFirst_eq_nil {α : Type} [DecidableEq α] (seen l : List α)
    (h : ∀ a ∈ l, a ∈ seen) : dedupFirst seen l = [] := by
  induction l generalizing seen with
  | nil => rfl
  | cons x xs ih =>
    have hx : x ∈ seen := h x (by simp)
    simp only [dedupFirst, if_pos hx]
    exact ih seen (fun a ha => h a (List.mem_cons_of_mem _ ha))

theorem dedupFirst_append_absorb {α : Type} [DecidableEq α] (seen l l2 : List α)
    (hnd : l.Nodup) (hdisj : ∀ a ∈ l, a ∉ seen)
    (hsub : ∀ a ∈ l2, a ∈ l ∨ a ∈ seen) :
    dedupFirst seen (l ++ l2) = dedupFirst seen l := by
  induction l generalizing seen with
  | nil =>
    simp only [List.nil_append, dedupFirst]
    exact dedupFirst_eq_nil seen l2 (fun a ha => (hsub a ha).resolve_left
      (fun h => (List.not_mem_nil a) h))
  | cons x xs ih =>
    have hx : x ∉ seen := hdisj x (by simp)
    simp only [List.cons_append, dedupFirst, if_neg hx]
    congr 1
    apply ih (x :: seen) hnd.of_cons
    · intro a ha
      simp only [List.mem_cons, not_or]
      refine ⟨fun h => ?_, hdisj a (List.mem_cons_of_mem _ ha)⟩
      subst h
      exact (List.nodup_cons.mp hnd).1 ha
    · intro a ha
      rcases hsub a ha with h | h
      · rcases List.mem_cons.mp h with rfl | h
        · exact Or.inr (by simp)
        · exact Or.inl h
      · exact Or.inr (List.mem_cons_of_mem _ h)

theorem mergeArrayById_mem {α : Type} (getId : α → Nat) (getUpd : α → Option Nat)
    (loc rem : List α) (x : α) (hx : x ∈ loc ∨ x ∈ rem) :
    ∃ y ∈ mergeArrayById getId getUpd loc rem, getId y = getId x := by
  simp only [mergeArrayById]
  rcases hx with hx | hx
  · have hi : getId x ∈ loc.map getId := List.mem_map_of_mem getId hx
    have hk : getId x ∈ dedupFirst [] (loc.map getId) :=
      (mem_dedupFirst _ _ _).mpr ⟨hi, by simp⟩
    obtain ⟨li, hli⟩ := jsMapGet_isSome getId loc (getId x) hi
    cases hr : jsMapGet getId rem (getId x) with
    | none =>
      exact ⟨li, List.mem_append_left _
        (List.mem_filterMap.mpr ⟨getId x, hk, by simp [hli, hr]⟩),
        jsMapGet_key _ _ _ _ hli⟩
    | some ri =>
      by_cases hw : tms (getUpd ri) > tms (getUpd li)
      · exact ⟨ri, List.mem_append_left _
          (List.mem_filterMap.mpr ⟨getId x, hk, by simp [hli, hr, hw]⟩),
          jsMapGet_key _ _ _ _ hr⟩
      · exact ⟨li, List.mem_append_left _
          (List.mem_filterMap.mpr ⟨getId x, hk, by simp [hli, hr, hw]⟩),
          jsMapGet_key _ _ _ _ hli⟩
  · by_cases hl : getId x ∈ loc.map getId
    · have hk : getId x ∈ dedupFirst [] (loc.map getId) :=
        (mem_dedupFirst _ _ _).mpr ⟨hl, by simp⟩
      obtain ⟨li, hli⟩ := jsMapGet_isSome getId loc (getId x) hl
      obtain ⟨ri, hri⟩ := jsMapGet_isSome getId rem (getId x)
        (List.mem_map_of_mem getId hx)
      by_cases hw : tms (getUpd ri) > tms (getUpd li)
      · exact ⟨ri, List.mem_append_left _
          (List.mem_filterMap.mpr ⟨getId x, hk, by simp [hli, hri, hw]⟩),
          jsMapGet_key _ _ _ _ hri⟩
      · exact ⟨li, List.mem_append_left _
          (List.mem_filterMap.mpr ⟨getId x, hk, by simp [hli, hri, hw]⟩),
          jsMapGet_key _ _ _ _ hli⟩
    · have hi : getId x ∈ rem.map getId := List.mem_map_of_mem getId hx
      have hk : getId x ∈ dedupFirst [] (rem.map getId) :=
        (mem_dedupFirst _ _ _).mpr ⟨hi, by simp⟩
      obtain ⟨ri, hri⟩ := jsMapGet_isSome getId rem (getId x) hi
      exact ⟨ri, List.mem_append_right _
        (List.mem_filterMap.mpr ⟨getId x, hk, by simp [hl, hri]⟩),
        jsMapGet_key _ _ _ _ hri⟩

theorem mergeArrayById_conflict {α : Type} (getId : α → Nat)
    (getUpd : α → Option Nat) (loc rem : List α) (i : Nat) (li ri : α)
    (h1 : jsMapGet getId loc i = some li) (h2 : jsMapGet getId rem i = some ri) :
    (if tms (getUpd ri) > tms (getUpd li) then ri else li) ∈
      mergeArrayById getId getUpd loc rem := by
  have hi : i ∈ loc.map getId := by
    have hm := jsMapGet_mem _ _ _ _ h1
    have hk := jsMapGet_key _ _ _ _ h1
    exact hk ▸ List.mem_map_of_mem getId hm
  simp only [mergeArrayById]
  apply List.mem_append_left
  exact List.mem_filterMap.mpr
    ⟨i, (mem_dedupFirst _ _ _).mpr ⟨hi, by simp⟩, by simp [h1, h2]⟩

theorem mergeClassrooms_mem (loc rem : List Classroom) (c : Classroom)
    (hc : c ∈ loc ∨ c ∈ rem) :
    ∃ c' ∈ mergeClassrooms loc rem, c'.id = c.id := by
  have hid : c.id ∈ loc.map Classroom.id ∨ c.id ∈ rem.map Classroom.id :=
    hc.imp (List.mem_map_of_mem _) (List.mem_map_of_mem _)
  have hk : c.id ∈ dedupFirst []
      (dedupFirst [] (loc.map Classroom.id) ++
       dedupFirst [] (rem.map Classroom.id)) := by
    apply (mem_dedupFirst _ _ _).mpr
    refine ⟨?_, by simp⟩
    rcases hid with h | h
    · exact List.mem_append_left _ ((mem_dedupFirst _ _ _).mpr ⟨h, by simp⟩)
    · exact List.mem_append_right _ ((mem_dedupFirst _ _ _).mpr ⟨h, by simp⟩)
  simp only [mergeClassrooms]
  cases hl : jsMapGet Classroom.id loc c.id with
  | some lc =>
    cases hr : jsMapGet Classroom.id rem c.id with
    | some rc =>
      exact ⟨mergeClassroomPair lc rc,
        List.mem_filterMap.mpr ⟨c.id, hk, by simp [hl, hr]⟩,
        mergeClassroomPair_id lc rc c.id
          (jsMapGet_key _ _ _ _ hl) (jsMapGet_key _ _ _ _ hr)⟩
    | none =>
      exact ⟨lc, List.mem_filterMap.mpr ⟨c.id, hk, by simp [hl, hr]⟩,
        jsMapGet_key _ _ _ _ hl⟩
  | none =>
    cases hr : jsMapGet Classroom.id rem c.id with
    | some rc =>
      exact ⟨rc, List.mem_filterMap.mpr ⟨c.id, hk, by simp [hl, hr]⟩,
        jsMapGet_key _ _ _ _ hr⟩
    | none =>
      exfalso
      rcases hid with h | h
      · obtain ⟨a, ha⟩ := jsMapGet_isSome Classroom.id loc c.id h
        rw [hl] at ha; cases ha
      · obtain ⟨a, ha⟩ := jsMapGet_isSome Classroom.id rem c.id h
        rw [hr] at ha; cases ha

theorem mergeClassrooms_conflict (loc rem : List Classroom) (i : String)
    (lc rc : Classroom) (h1 : jsMapGet Classroom.id loc i = some lc)
    (h2 : jsMapGet Classroom.id rem i = some rc) :
    mergeClassroomPair lc rc ∈ mergeClassrooms loc rem := by
  have hi : i ∈ loc.map Classroom.id := by
    have hm := jsMapGet_mem _ _ _ _ h1
    have hk := jsMapGet_key _ _ _ _ h1
    exact hk ▸ List.mem_map_of_mem Classroom.id hm
  have hk : i ∈ dedupFirst []
      (dedupFirst [] (loc.map Classroom.id) ++
       dedupFirst [] (rem.map Classroom.id)) := by
    apply (mem_dedupFirst _ _ _).mpr
    exact ⟨List.mem_append_left _ ((mem_dedupFirst _ _ _).mpr ⟨hi, by simp⟩),
      by simp⟩
  simp only [mergeClassrooms]
  exact List.mem_filterMap.mpr ⟨i, hk, by simp [h1, h2]⟩

theorem mergeClassrooms_self (l : List Classroom)
    (hnd : (l.map Classroom.id).Nodup) : mergeClassrooms l l = l := by
  simp only [mergeClassrooms]
  rw [dedupFirst_eq_self [] (l.map Classroom.id) hnd (by simp),
    dedupFirst_append_absorb [] (l.map Classroom.id) (l.map Classroom.id) hnd
      (by simp) (fun a ha => Or.inl ha),
    dedupFirst_eq_self [] (l.map Classroom.id) hnd (by simp)]
  apply filterMap_map_self
  intro c hc
  rw [jsMapGet_nodup Classroom.id l c hnd hc]
  simp [mergeClassroomPair_self]

/-! ## Claim theorems -/

/-- C1, counterexample: student 1 exists only in the remote input (it is in
`storeB`'s classroom and in no local classroom), yet because the local copy of
the parent classroom has the newer `updatedAt`, `mergeData` keeps the local
subtree wholesale and no student with id 1 exists anywhere in the merge —
refuting "merge never removes a created entity … regardless of which side's
parent classroom has the newer updatedAt". -/
theorem claim1_counterexample :
    (storeB.classrooms.any (fun c => c.students.any (fun s => s.id == 1))) = true
    ∧ (storeA.classrooms.all (fun c => c.students.all (fun s => s.id != 1))) = true
    ∧ ((mergeData storeA (some storeB) 7).classrooms.all
        (fun c => c.students.all (fun s => s.id != 1))) = true := by
  decide

/-- C1, amended: merge never removes an entity at the classroom level, and
never removes a student or lesson of a classroom whose remote copy is strictly
newer (children are then unioned by id via `mergeArrayById`); when the local
parent is newer-or-equal the local subtree is kept wholesale, so remote-only
children are dropped (see the counterexample). -/
theorem claim1_no_silent_deletion_amended :
    (∀ (loc rem : Store) (now : Nat) (c : Classroom),
      c ∈ loc.classrooms ∨ c ∈ rem.classrooms →
      ∃ c' ∈ (mergeData loc (some rem) now).classrooms, c'.id = c.id)
    ∧ (∀ {α : Type} (getId : α → Nat) (getUpd : α → Option Nat)
        (l r : List α) (x : α), x ∈ l ∨ x ∈ r →
        ∃ y ∈ mergeArrayById getId getUpd l r, getId y = getId x)
    ∧ (∀ (loc rem : Store) (now : Nat) (i : String) (lc rc : Classroom),
        jsMapGet Classroom.id loc.classrooms i = some lc →
        jsMapGet Classroom.id rem.classrooms i = some rc →
        tms rc.updatedAt > tms lc.updatedAt →
        { rc with
          students := mergeArrayById Student.id Student.updatedAt
            lc.students rc.students
          lessons := mergeArrayById Lesson.id Lesson.updatedAt
            lc.lessons rc.lessons } ∈ (mergeData loc (some rem) now).classrooms) := by
  refine ⟨?_, ?_, ?_⟩
  · intro loc rem now c hc
    exact mergeClassrooms_mem loc.classrooms rem.classrooms c hc
  · intro α getId getUpd l r x hx
    exact mergeArrayById_mem getId getUpd l r x hx
  · intro loc rem now i lc rc h1 h2 hw
    have h := mergeClassrooms_conflict loc.classrooms rem.classrooms i lc rc h1 h2
    rw [mergeClassroomPair, if_pos hw] at h
    exact h

/-- C1, witness for the amended theorem at concrete inputs. -/
theorem claim1_no_silent_deletion_amended_witness :
    (∃ c' ∈ (mergeData storeA (some storeB) 7).classrooms, c'.id = classroomB.id)
    ∧ (∃ y ∈ mergeArrayById Student.id Student.updatedAt [] [sampleStudent],
        y.id = sampleStudent.id)
    ∧ ({ classroomA with
          students := mergeArrayById Student.id Student.updatedAt
            classroomB.students classroomA.students
          lessons := mergeArrayById Lesson.id Lesson.updatedAt
            classroomB.lessons classroomA.lessons } ∈
        (mergeData storeB (some storeA) 7).classrooms) :=
  ⟨claim1_no_silent_deletion_amended.1 storeA storeB 7 classroomB
      (Or.inr (by decide)),
   claim1_no_silent_deletion_amended.2.1 Student.id Student.updatedAt
      [] [sampleStudent] sampleStudent (Or.inr (by decide)),
   claim1_no_silent_deletion_amended.2.2 storeB storeA 7 "c1"
      classroomB classroomA (by decide) (by decide) (by decide)⟩

/-- C2, counterexample: `mergeData(X, X)` stamps `lastSync` with the current
wall clock (`storeA.lastSync` is `5`, the merge runs at `7`), so the merge of
a valid snapshot with itself is not structurally equal to it. -/
theorem claim2_counterexample : mergeData storeA (some storeA) 7 ≠ storeA := by
  decide

/-- C2, amended: for a valid snapshot `X` (classroom ids without duplicates,
a truthy `nextId`), `mergeData(X, X)` — in both source variants — equals `X`
on every field except `lastSync`, which is set to the merge's wall-clock
time. -/
theorem claim2_idempotent_up_to_lastSync (X : Store) (now : Nat)
    (hnd : (X.classrooms.map Classroom.id).Nodup) (hn : X.nextId ≠ 0) :
    { mergeData X (some X) now with lastSync := X.lastSync } = X
    ∧ { mergeData_v6 X (some X) now with lastSync := X.lastSync } = X := by
  obtain ⟨cls, nid, u, ls, ss, pc, es, gt⟩ := X
  simp only at hnd hn
  have h1 : mergeClassrooms cls cls = cls := mergeClassrooms_self cls hnd
  have h2 : max (jsOrNat nid 1) (jsOrNat nid 1) = nid := by
    simp [jsOrNat, if_neg hn]
  constructor <;> cases es <;> simp [mergeData, mergeData_v6, h1, h2, jsOrNat, hn]

/-- C2, witness for the amended theorem at a concrete snapshot. -/
theorem claim2_idempotent_up_to_lastSync_witness :
    { mergeData storeA (some storeA) 7 with lastSync := storeA.lastSync } = storeA
    ∧ { mergeData_v6 storeA (some storeA) 7 with lastSync := storeA.lastSync } = storeA :=
  claim2_idempotent_up_to_lastSync storeA 7 (by decide) (by decide)

/-- C3, counterexample: `mergeData` reads the wall clock (`lastSync` is
stamped with `new Date().toISOString()`), so running it on the same two
inputs at two different instants yields structurally different results — in
both variants. -/
theorem claim3_counterexample :
    mergeData storeA (some storeB) 1 ≠ mergeData storeA (some storeB) 2
    ∧ mergeData_v6 storeA (some storeB) 1 ≠ mergeData_v6 storeA (some storeB) 2 := by
  constructor <;> decide

/-- C3, amended: `mergeData` is a deterministic function of its two inputs
and the wall clock influences nothing but the stamped `lastSync` field: with
`lastSync` masked, runs at any two instants agree — in both variants. -/
theorem claim3_deterministic_up_to_lastSync (loc : Store) (rem : Option Store)
    (now1 now2 : Nat) :
    { mergeData loc rem now1 with lastSync := none }
      = { mergeData loc rem now2 with lastSync := none }
    ∧ { mergeData_v6 loc rem now1 with lastSync := none }
      = { mergeData_v6 loc rem now2 with lastSync := none } := by
  cases rem <;> exact ⟨rfl, rfl⟩

/-- C4: for an id present on both sides, `mergeArrayById` keeps the exact
copy whose `updatedAt` parses strictly later, the local copy on ties (strict
`>` applied to the remote side); and the merged classroom for a shared id
carries the winner's top-level fields (everything but the deep-merged
`students`/`lessons`). -/
theorem claim4_timestamp_tiebreak :
    (∀ {α : Type} (getId : α → Nat) (getUpd : α → Option Nat)
       (loc rem : List α) (i : Nat) (li ri : α),
       jsMapGet getId loc i = some li → jsMapGet getId rem i = some ri →
       (if tms (getUpd ri) > tms (getUpd li) then ri else li) ∈
         mergeArrayById getId getUpd loc rem)
    ∧ (∀ (loc rem : Store) (now : Nat) (i : String) (lc rc : Classroom),
        jsMapGet Classroom.id loc.classrooms i = some lc →
        jsMapGet Classroom.id rem.classrooms i = some rc →
        ∃ c' ∈ (mergeData loc (some rem) now).classrooms,
          c'.id = (if tms rc.updatedAt > tms lc.updatedAt then rc else lc).id
          ∧ c'.name = (if tms rc.updatedAt > tms lc.updatedAt then rc else lc).name
          ∧ c'.subject = (if tms rc.updatedAt > tms lc.updatedAt then rc else lc).subject
          ∧ c'.teacher = (if tms rc.updatedAt > tms lc.updatedAt then rc else lc).teacher
          ∧ c'.columns = (if tms rc.updatedAt > tms lc.updatedAt then rc else lc).columns
          ∧ c'.nextSid = (if tms rc.updatedAt > tms lc.updatedAt then rc else lc).nextSid
          ∧ c'.nextLid = (if tms rc.updatedAt > tms lc.updatedAt then rc else lc).nextLid
          ∧ c'.nextCid = (if tms rc.updatedAt > tms lc.updatedAt then rc else lc).nextCid
          ∧ c'.updatedAt = (if tms rc.updatedAt > tms lc.updatedAt then rc else lc).updatedAt) := by
  constructor
  · intro α getId getUpd loc rem i li ri h1 h2
    exact mergeArrayById_conflict getId getUpd loc rem i li ri h1 h2
  · intro loc rem now i lc rc h1 h2
    refine ⟨mergeClassroomPair lc rc,
      mergeClassrooms_conflict loc.classrooms rem.classrooms i lc rc h1 h2, ?_⟩
    by_cases hw : tms rc.updatedAt > tms lc.updatedAt <;>
      simp [mergeClassroomPair, hw]

/-- C4, witness at concrete inputs: a student conflict where the remote copy
is strictly newer, and the classroom conflict of `storeA`/`storeB`. -/
theorem claim4_timestamp_tiebreak_witness :
    ((if tms sampleStudentNewer.updatedAt > tms sampleStudent.updatedAt
       then sampleStudentNewer else sampleStudent) ∈
      mergeArrayById Student.id Student.updatedAt [sampleStudent] [sampleStudentNewer])
    ∧ (∃ c' ∈ (mergeData storeA (some storeB) 7).classrooms,
        c'.id = (if tms classroomB.updatedAt > tms classroomA.updatedAt
          then classroomB else classroomA).id
        ∧ c'.name = (if tms classroomB.updatedAt > tms classroomA.updatedAt
          then classroomB else classroomA).name
        ∧ c'.subject = (if tms classroomB.updatedAt > tms classroomA.updatedAt
          then classroomB else classroomA).subject
        ∧ c'.teacher = (if tms classroomB.updatedAt > tms classroomA.updatedAt
          then classroomB else classroomA).teacher
        ∧ c'.columns = (if tms classroomB.updatedAt > tms classroomA.updatedAt
          then classroomB else classroomA).columns
        ∧ c'.nextSid = (if tms classroomB.updatedAt > tms classroomA.updatedAt
          then classroomB else classroomA).nextSid
        ∧ c'.nextLid = (if tms classroomB.updatedAt > tms classroomA.updatedAt
          then classroomB else classroomA).nextLid
        ∧ c'.nextCid = (if tms classroomB.updatedAt > tms classroomA.updatedAt
          then classroomB else classroomA).nextCid
        ∧ c'.updatedAt = (if tms classroomB.updatedAt > tms classroomA.updatedAt
          then classroomB else classroomA).updatedAt) :=
  ⟨claim4_timestamp_tiebreak.1 Student.id Student.updatedAt
      [sampleStudent] [sampleStudentNewer] 1 sampleStudent sampleStudentNewer
      (by decide) (by decide),
   claim4_timestamp_tiebreak.2 storeA storeB 7 "c1" classroomA classroomB
      (by decide) (by decide)⟩

/-- C7, counterexample: with connectivity reported down and a remote-backed
signed-in user, the v7 save operation leaves the pending queue empty — no
marker is appended (it does also skip the remote call). -/
theorem claim7_counterexample :
    (saveOperation envOffline storeWithUser "class" 9).1.pendingChanges = []
    ∧ (saveOperation envOffline storeWithUser "class" 9).2 = false
    ∧ userModeSupabase storeWithUser = true := by
  decide

/-- C7, amended: while the runtime reports no connectivity, neither variant
attempts the remote call; the `part_000` variant additionally appends exactly
one pending-change marker for a remote-backed user, while the `app.js`
variant leaves the store (and its pending queue) unchanged. -/
theorem claim7_offline_save_amended (env : SaveEnv) (db : Store)
    (badge : String) (now : Nat) (hoff : env.online = false) :
    (saveOperation env db badge now).1 = db
    ∧ (saveOperation env db badge now).2 = false
    ∧ (userModeSupabase db = true →
        (saveOperation_v6 env db badge now).1 = queuePendingChanges db badge now
        ∧ (saveOperation_v6 env db badge now).2 = false) := by
  have hc : ¬ (env.online ∧ env.supabaseReady ∧ userIsSupabaseWithId db) := by
    intro h
    rw [hoff] at h
    exact Bool.false_ne_true h.1
  refine ⟨?_, ?_, ?_⟩
  · rw [saveOperation, if_neg hc]
  · rw [saveOperation, if_neg hc]
  · intro hmode
    rw [saveOperation_v6, if_neg hc, if_pos hmode]
    exact ⟨rfl, rfl⟩

/-- C7, witness: the offline environment applied to the remote-backed sample
store. -/
theorem claim7_offline_save_amended_witness :
    (saveOperation envOffline storeWithUser "class" 9).1 = storeWithUser
    ∧ (saveOperation envOffline storeWithUser "class" 9).2 = false
    ∧ (userModeSupabase storeWithUser = true →
        (saveOperation_v6 envOffline storeWithUser "class" 9).1
          = queuePendingChanges storeWithUser "class" 9
        ∧ (saveOperation_v6 envOffline storeWithUser "class" 9).2 = false) :=
  claim7_offline_save_amended envOffline storeWithUser "class" 9 (by decide)

/-- C9: the end-to-end scenario — empty store, create a classroom, add
student "Ada", create a standard lesson dated 2024-03-01 with no attendance
entry (absent `att_` key defaults to present): `studentStats` reports
present 1 / late 0 / absent 0 / attended 1 / total 1; after `setAtt` marks
the student absent on that lesson it reports present 0 / absent 1 /
attended 0 / total 1. -/
theorem claim9_studentStats_scenario :
    (createClassroom initialStore "class_1700000000000_a1b2c3d4e" "C1" "" "" 100).classrooms.map
      (fun c =>
        let c2 := saveLesson (addStudent c "Ada" "" "" "" "" "" 101)
          "L1" "2024-03-01" none "standard" 102
        (studentStats c2 1, studentStats (setAtt c2 1 1 "absent" 103) 1))
    = [({ present := 1, late := 0, absent := 0, attended := 1, total := 1 },
        { present := 0, late := 0, absent := 1, attended := 0, total := 1 })] := by
  decide

theorem updFirstBy_eq_map {α : Type} (p : α → Bool) (f : α → α) (l : List α)
    (hnd : l.Nodup)
    (huniq : ∀ x ∈ l, ∀ y ∈ l, p x = true → p y = true → x = y) :
    updFirstBy p f l = l.map (fun x => if p x then f x else x) := by
  induction l with
  | nil => rfl
  | cons a l ih =>
    by_cases hpa : p a = true
    · simp only [updFirstBy, if_pos hpa, List.map_cons]
      congr 1
      have hall : ∀ x ∈ l, (if p x then f x else x) = x := by
        intro x hx
        have hnpx : ¬ p x = true := by
          intro hpx
          have hax := huniq a (by simp) x (List.mem_cons_of_mem _ hx) hpa hpx
          exact (List.nodup_cons.mp hnd).1 (hax ▸ hx)
        simp [hnpx]
      symm
      simpa using List.map_congr_left hall
    · simp only [updFirstBy, if_neg hpa, List.map_cons]
      rw [ih hnd.of_cons]
      intro x hx y hy hpx hpy
      exact huniq x (List.mem_cons_of_mem _ hx) y (List.mem_cons_of_mem _ hy) hpx hpy

theorem updLastBy_eq_map {α : Type} (p : α → Bool) (f : α → α) (l : List α)
    (hnd : l.Nodup)
    (huniq : ∀ x ∈ l, ∀ y ∈ l, p x = true → p y = true → x = y) :
    updLastBy p f l = l.map (fun x => if p x then f x else x) := by
  rw [updLastBy, updFirstBy_eq_map p f l.reverse (List.nodup_reverse.mpr hnd)
    (fun x hx y hy hpx hpy =>
      huniq x (List.mem_reverse.mp hx) y (List.mem_reverse.mp hy) hpx hpy),
    List.map_reverse, List.reverse_reverse]

theorem lastN_of_le {α : Type} (k : Nat) (l : List α) (h : l.length ≤ k) :
    lastN k l = l := by
  rw [lastN, Nat.sub_eq_zero_of_le h, List.drop_zero]

theorem lastN_cons {α : Type} (k : Nat) (a : α) (l : List α)
    (h : k ≤ l.length) : lastN k (a :: l) = lastN k l := by
  rw [lastN, lastN, List.length_cons,
    show l.length + 1 - k = (l.length - k) + 1 by omega, List.drop_succ_cons]

theorem queuePendingChanges_queue (db : Store) (badge : String) (now : Nat) :
    (queuePendingChanges db badge now).pendingChanges =
      (if (db.pendingChanges ++ [mkMarker (now, badge)]).length > 50 then
        (db.pendingChanges ++ [mkMarker (now, badge)]).tail
      else db.pendingChanges ++ [mkMarker (now, badge)]) := rfl

theorem queuePendingChanges_le (db : Store) (badge : String) (now : Nat)
    (h : db.pendingChanges.length ≤ 50) :
    (queuePendingChanges db badge now).pendingChanges.length ≤ 50 := by
  rw [queuePendingChanges_queue]
  split <;> rename_i hcond <;>
    simp only [List.length_tail, List.length_append, List.length_cons,
      List.length_nil, gt_iff_lt, not_lt] at hcond ⊢ <;> omega

theorem enqueueAll_queue (items : List (Nat × String)) (db : Store)
    (h : db.pendingChanges.length ≤ 50) :
    (enqueueAll db items).pendingChanges =
      lastN 50 (db.pendingChanges ++ items.map mkMarker) := by
  induction items generalizing db with
  | nil =>
    rw [enqueueAll, List.foldl_nil, List.map_nil, List.append_nil,
      lastN_of_le 50 _ h]
  | cons it rest ih =>
    rw [enqueueAll, List.foldl_cons]
    have step : (queuePendingChanges db it.2 it.1).pendingChanges =
        (if (db.pendingChanges ++ [mkMarker it]).length > 50 then
          (db.pendingChanges ++ [mkMarker it]).tail
        else db.pendingChanges ++ [mkMarker it]) := by
      rw [queuePendingChanges_queue]
    have h' : (queuePendingChanges db it.2 it.1).pendingChanges.length ≤ 50 :=
      queuePendingChanges_le db it.2 it.1 h
    rw [show rest.foldl (fun d itm => queuePendingChanges d itm.2 itm.1)
        (queuePendingChanges db it.2 it.1)
        = enqueueAll (queuePendingChanges db it.2 it.1) rest from rfl,
      ih _ h', step]
    by_cases hlen : (db.pendingChanges ++ [mkMarker it]).length > 50
    · rw [if_pos hlen]
      rcases hq : db.pendingChanges with _ | ⟨b, q2⟩
      · simp [hq] at hlen
      · rw [hq] at hlen h
        simp only [List.length_append, List.length_cons, List.length_nil] at hlen h
        simp only [List.cons_append, List.tail_cons, List.map_cons]
        rw [lastN_cons 50 b _ (by
          simp only [List.length_append, List.length_cons, List.length_map]
          omega)]
        rw [List.append_assoc]
        rfl
    · rw [if_neg hlen, List.map_cons, List.append_assoc]
      rfl

set_option maxRecDepth 8000 in
/-- C8, counterexample: after enqueuing sixty markers (timestamps `0..59`)
into an empty queue, the head of the surviving queue is the oldest surviving
marker (timestamp 10), not the newest (timestamp 59) — the queue is kept in
insertion order, refuting "newest-first order preserved". -/
theorem claim8_counterexample :
    (enqueueAll initialStore sixtyItems).pendingChanges.head?
      = some { timestamp := 10, context := "c" }
    ∧ (enqueueAll initialStore sixtyItems).pendingChanges.head?
      ≠ some { timestamp := 59, context := "c" } := by
  constructor <;> decide

/-- C8, amended: one enqueue preserves the 50-entry bound, and enqueuing 60
markers into an empty queue leaves exactly the 50 most recent markers, the
10 oldest evicted, the survivors kept in insertion order (oldest surviving
marker first, newest last). -/
theorem claim8_queue_bound_and_order :
    (∀ (db : Store) (badge : String) (now : Nat),
      db.pendingChanges.length ≤ 50 →
      (queuePendingChanges db badge now).pendingChanges.length ≤ 50)
    ∧ (∀ (items : List (Nat × String)) (db : Store),
      db.pendingChanges = [] → items.length = 60 →
      (enqueueAll db items).pendingChanges = (items.map mkMarker).drop 10) := by
  refine ⟨queuePendingChanges_le, ?_⟩
  intro items db hq hlen
  rw [enqueueAll_queue items db (by rw [hq]; simp), hq, List.nil_append, lastN]
  congr 1
  simp [hlen]

/-- C8, witness: the sixty sample markers enqueued into the pristine store. -/
theorem claim8_queue_bound_and_order_witness :
    (enqueueAll initialStore sixtyItems).pendingChanges
      = (sixtyItems.map mkMarker).drop 10 :=
  claim8_queue_bound_and_order.2 sixtyItems initialStore (by decide) (by decide)

/-- C10: confirmed — deleting a student (the confirmed branch of
`delStudentConfirm`) only filters the aliased classroom's `students` array:
the whole store equals the original with just that classroom's `students`
filtered, every other top-level field is untouched, other classrooms are
kept verbatim, and the affected classroom keeps its lessons (hence all
orphaned `att_`/`col_` entries and `studentIds` snapshots), columns,
counters, id and `updatedAt`. -/
theorem claim10_delStudent_frame (db : Store) (cid : String) (sid : Nat)
    (c : Classroom) (hnd : (db.classrooms.map Classroom.id).Nodup)
    (hc : jsMapGet Classroom.id db.classrooms cid = some c)
    (hs : ∃ s, jsMapGet Student.id c.students sid = some s) :
    (delStudentConfirm db cid sid).classrooms
      = db.classrooms.map (fun cc =>
          if cc.id = cid then
            { cc with students := cc.students.filter (fun st => st.id ≠ sid) }
          else cc)
    ∧ (delStudentConfirm db cid sid).nextId = db.nextId
    ∧ (delStudentConfirm db cid sid).user = db.user
    ∧ (delStudentConfirm db cid sid).lastSync = db.lastSync
    ∧ (delStudentConfirm db cid sid).syncStatus = db.syncStatus
    ∧ (delStudentConfirm db cid sid).pendingChanges = db.pendingChanges
    ∧ (delStudentConfirm db cid sid).exportSettings = db.exportSettings
    ∧ (delStudentConfirm db cid sid).gradeTemplates = db.gradeTemplates
    ∧ (∀ cc ∈ db.classrooms, cc.id ≠ cid →
        cc ∈ (delStudentConfirm db cid sid).classrooms)
    ∧ (∀ cc ∈ db.classrooms, cc.id = cid →
        ∃ cc' ∈ (delStudentConfirm db cid sid).classrooms,
          cc'.id = cc.id ∧ cc'.name = cc.name ∧ cc'.subject = cc.subject
          ∧ cc'.teacher = cc.teacher ∧ cc'.lessons = cc.lessons
          ∧ cc'.columns = cc.columns ∧ cc'.nextSid = cc.nextSid
          ∧ cc'.nextLid = cc.nextLid ∧ cc'.nextCid = cc.nextCid
          ∧ cc'.updatedAt = cc.updatedAt
          ∧ cc'.students = cc.students.filter (fun st => st.id ≠ sid)) := by
  obtain ⟨s, hs⟩ := hs
  have key : delStudentConfirm db cid sid
      = { db with classrooms := db.classrooms.map (fun cc =>
          if cc.id = cid then
            { cc with students := cc.students.filter (fun st => st.id ≠ sid) }
          else cc) } := by
    simp only [delStudentConfirm, hc, hs]
    congr 1
    have huniq : ∀ x ∈ db.classrooms, ∀ y ∈ db.classrooms,
        (fun cc => decide (cc.id = cid)) x = true →
        (fun cc => decide (cc.id = cid)) y = true → x = y := by
      intro x hx y hy hpx hpy
      have hxid : x.id = cid := by simpa using hpx
      have hyid : y.id = cid := by simpa using hpy
      exact List.inj_on_of_nodup_map hnd hx hy (hxid.trans hyid.symm)
    rw [updLastBy_eq_map _ _ db.classrooms (List.Nodup.of_map _ hnd) huniq]
    apply List.map_congr_left
    intro x hx
    by_cases hxc : x.id = cid <;> simp [hxc]
  rw [key]
  refine ⟨rfl, rfl, rfl, rfl, rfl, rfl, rfl, rfl, ?_, ?_⟩
  · intro cc hcc hne
    exact List.mem_map.mpr ⟨cc, hcc, by simp [hne]⟩
  · intro cc hcc heq
    refine ⟨{ cc with students := cc.students.filter (fun st => st.id ≠ sid) },
      List.mem_map.mpr ⟨cc, hcc, by simp [heq]⟩, ?_⟩
    exact ⟨rfl, rfl, rfl, rfl, rfl, rfl, rfl, rfl, rfl, rfl, rfl⟩

/-- C10, witness: deleting student 1 from classroom `c1` of the two-classroom
sample store. -/
theorem claim10_delStudent_frame_witness :
    (delStudentConfirm storeDel "c1" 1).classrooms
      = storeDel.classrooms.map (fun cc =>
          if cc.id = "c1" then
            { cc with students := cc.students.filter (fun st => st.id ≠ 1) }
          else cc) :=
  (claim10_delStudent_frame storeDel "c1" 1 classroomD (by decide) (by decide)
    ⟨sampleStudent, by decide⟩).1

/-- C5, counterexample: a transient network failure on the classrooms fetch
(the rejected promise `envNetworkDown`) makes the v7 pull return the empty
remote instead of propagating — the claim's "except … the pull propagates"
clause is false of `src/app.js`; dually, the v6 pull propagates a
schema error instead of degrading. -/
theorem claim5_counterexample :
    loadUserDataFromSupabase storeA envNetworkDown = emptyRemote
    ∧ loadUserDataFromSupabase_v6 storeA envSchemaMissing
        = Except.error "relation classrooms does not exist" :=
  ⟨rfl, rfl⟩

theorem matchWrapEmpty_if (c : Bool) (msg : String) :
    (match (if c = true then (pure emptyRemote : Except String Store)
            else Except.error msg) with
      | .ok r => r
      | .error _ => emptyRemote) = emptyRemote := by
  cases c <;> rfl

/-- C5, amended: in the `app.js` variant every pull error on the classrooms
query — network rejection or response error, transient or not — degrades to
the empty remote `{ classrooms: [] }` and never propagates; in the
`part_000` variant every such error propagates to the caller (so that sync
aborts), with no degraded path. -/
theorem claim5_pull_error_semantics_amended :
    (∀ (db : Store) (env : PullEnv) (msg : String),
      env.classrooms = .throw msg →
      loadUserDataFromSupabase db env = emptyRemote)
    ∧ (∀ (db : Store) (env : PullEnv) (msg : String),
      env.classrooms = .fail msg →
      loadUserDataFromSupabase db env = emptyRemote)
    ∧ (∀ (db : Store) (env : PullEnv) (msg : String),
      env.classrooms = .throw msg →
      loadUserDataFromSupabase_v6 db env = .error msg)
    ∧ (∀ (db : Store) (env : PullEnv) (msg : String),
      env.classrooms = .fail msg → (∀ m, env.settings ≠ .throw m) →
      loadUserDataFromSupabase_v6 db env = .error msg) := by
  refine ⟨?_, ?_, ?_, ?_⟩
  · intro db env msg h
    rw [loadUserDataFromSupabase, loadBody, h]
    cases hchk : checkTableExists env.checkClassrooms <;> rfl
  · intro db env msg h
    rw [loadUserDataFromSupabase, loadBody, h]
    cases hchk : checkTableExists env.checkClassrooms
    · rfl
    · cases hset : env.settings with
      | throw m => rfl
      | fail m => exact matchWrapEmpty_if (strIncludes msg "does not exist") msg
      | rows d => exact matchWrapEmpty_if (strIncludes msg "does not exist") msg
  · intro db env msg h
    rw [loadUserDataFromSupabase_v6, h]
    rfl
  · intro db env msg h hset
    rw [loadUserDataFromSupabase_v6, h]
    cases hs : env.settings with
    | throw m => exact absurd hs (hset m)
    | fail m => rfl
    | rows d => rfl

/-- C5, witness: the four error modes at the concrete environments. -/
theorem claim5_pull_error_semantics_amended_witness :
    loadUserDataFromSupabase storeB envNetworkDown = emptyRemote
    ∧ loadUserDataFromSupabase storeB envSchemaMissing = emptyRemote
    ∧ loadUserDataFromSupabase_v6 storeB envNetworkDown
        = .error "Network error - please check your connection"
    ∧ loadUserDataFromSupabase_v6 storeB envSchemaMissing
        = .error "relation classrooms does not exist" :=
  ⟨claim5_pull_error_semantics_amended.1 storeB envNetworkDown _ rfl,
   claim5_pull_error_semantics_amended.2.1 storeB envSchemaMissing _ rfl,
   claim5_pull_error_semantics_amended.2.2.1 storeB envNetworkDown _ rfl,
   claim5_pull_error_semantics_amended.2.2.2 storeB envSchemaMissing _ rfl
     (fun m hm => by simp [envSchemaMissing, envNetworkDown] at hm)⟩

theorem upsert_mem_self (t : List CloudClassroomRow) (r : CloudClassroomRow) :
    r ∈ upsertRow t r := by
  rw [upsertRow]
  split
  · rename_i hany
    rcases List.any_eq_true.mp hany with ⟨y, hy, hid⟩
    simp only [decide_eq_true_eq] at hid
    exact List.mem_map.mpr ⟨y, hy, by simp [hid]⟩
  · simp

theorem upsert_mem_of_ne (t : List CloudClassroomRow) (r r' : CloudClassroomRow)
    (h : r' ∈ t) (hne : r'.id ≠ r.id) : r' ∈ upsertRow t r := by
  rw [upsertRow]
  split
  · exact List.mem_map.mpr ⟨r', h, by simp [hne]⟩
  · exact List.mem_append_left _ h

theorem upsert_mem_ids (t : List CloudClassroomRow) (r r' : CloudClassroomRow)
    (h : r' ∈ t) : ∃ x ∈ upsertRow t r, x.id = r'.id := by
  by_cases hne : r'.id = r.id
  · exact ⟨r, upsert_mem_self t r, hne.symm⟩
  · exact ⟨r', upsert_mem_of_ne t r r' h hne, rfl⟩

theorem upsert_ids (t : List CloudClassroomRow) (r : CloudClassroomRow) :
    (upsertRow t r).map (fun x => x.id) =
      (if r.id ∈ t.map (fun x => x.id) then t.map (fun x => x.id)
       else t.map (fun x => x.id) ++ [r.id]) := by
  rw [upsertRow]
  have hiff : (t.any (fun x => x.id = r.id)) = true ↔
      r.id ∈ t.map (fun x => x.id) := by
    rw [List.any_eq_true]
    constructor
    · rintro ⟨x, hx, hid⟩
      simp only [decide_eq_true_eq] at hid
      exact List.mem_map.mpr ⟨x, hx, hid⟩
    · intro hm
      rcases List.mem_map.mp hm with ⟨x, hx, hid⟩
      exact ⟨x, hx, by simp [hid]⟩
  by_cases hm : r.id ∈ t.map (fun x => x.id)
  · rw [if_pos (hiff.mpr hm), if_pos hm, List.map_map]
    apply List.map_congr_left
    intro x hx
    by_cases hxe : x.id = r.id <;> simp [hxe]
  · rw [if_neg (fun hc => hm (hiff.mp hc)), if_neg hm]
    simp

theorem upsert_nodup (t : List CloudClassroomRow) (r : CloudClassroomRow)
    (h : (t.map (fun x => x.id)).Nodup) :
    ((upsertRow t r).map (fun x => x.id)).Nodup := by
  rw [upsert_ids]
  split
  · exact h
  · rename_i hm
    simp [List.nodup_append, h, hm]

theorem pushClassrooms_pres_mem (env : String → UpsertOutcome) (uid : String)
    (now : Nat) (cs : List Classroom) (table : List CloudClassroomRow)
    (r : CloudClassroomRow) (h : r ∈ table) :
    ∃ r' ∈ pushClassrooms env uid now cs table, r'.id = r.id := by
  induction cs generalizing table r with
  | nil => exact ⟨r, h, rfl⟩
  | cons c rest ih =>
    rw [pushClassrooms]
    cases env c.id with
    | ok =>
      rcases upsert_mem_ids table (classroomRow uid c now) r h with ⟨x, hx, hid⟩
      rcases ih _ x hx with ⟨r', hr', hid'⟩
      exact ⟨r', hr', hid'.trans hid⟩
    | errMissing => exact ⟨r, h, rfl⟩
    | errOther => exact ih _ r h

theorem pushClassrooms_pres_row (env : String → UpsertOutcome) (uid : String)
    (now : Nat) (cs : List Classroom) (table : List CloudClassroomRow)
    (x : String) (h : ∃ r ∈ table, r.id = x ∧ r.user_id = uid) :
    ∃ r ∈ pushClassrooms env uid now cs table, r.id = x ∧ r.user_id = uid := by
  induction cs generalizing table with
  | nil => exact h
  | cons c rest ih =>
    rw [pushClassrooms]
    cases env c.id with
    | ok =>
      apply ih
      rcases h with ⟨r, hr, hid, hu⟩
      by_cases hne : (classroomRow uid c now).id = x
      · exact ⟨classroomRow uid c now, upsert_mem_self _ _, hne, rfl⟩
      · exact ⟨r, upsert_mem_of_ne _ _ r hr (fun he => hne (he ▸ hid)), hid, hu⟩
    | errMissing => exact h
    | errOther => exact ih _ h

theorem pushClassrooms_writes (env : String → UpsertOutcome) (uid : String)
    (now : Nat) (cs : List Classroom) (table : List CloudClassroomRow)
    (c : Classroom) (henv : ∀ i, env i = .ok) (hc : c ∈ cs) :
    ∃ r ∈ pushClassrooms env uid now cs table, r.id = c.id ∧ r.user_id = uid := by
  induction cs generalizing table with
  | nil => cases hc
  | cons c0 rest ih =>
    rw [pushClassrooms, henv c0.id]
    rcases List.mem_cons.mp hc with rfl | hc'
    · exact pushClassrooms_pres_row env uid now rest _ c.id
        ⟨classroomRow uid c now, upsert_mem_self _ _, rfl, rfl⟩
    · exact ih _ hc'


theorem pushClassrooms_nodup (env : String → UpsertOutcome) (uid : String)
    (now : Nat) (cs : List Classroom) (table : List CloudClassroomRow)
    (h : (table.map (fun r => r.id)).Nodup) :
    ((pushClassrooms env uid now cs table).map (fun r => r.id)).Nodup := by
  induction cs generalizing table with
  | nil => exact h
  | cons c rest ih =>
    rw [pushClassrooms]
    cases env c.id with
    | ok => exact ih _ (upsert_nodup _ _ h)
    | errMissing => exact h
    | errOther => exact ih _ h

theorem pushClassrooms_ids_stable (env : String → UpsertOutcome) (uid : String)
    (now : Nat) (cs : List Classroom) (table : List CloudClassroomRow)
    (henv : ∀ i, env i = .ok)
    (h : ∀ c ∈ cs, c.id ∈ table.map (fun r => r.id)) :
    (pushClassrooms env uid now cs table).map (fun r => r.id)
      = table.map (fun r => r.id) := by
  induction cs generalizing table with
  | nil => rfl
  | cons c rest ih =>
    rw [pushClassrooms, henv c.id]
    have hc : c.id ∈ table.map (fun r => r.id) := h c (by simp)
    have hids : (upsertRow table (classroomRow uid c now)).map (fun r => r.id)
        = table.map (fun r => r.id) := by
      rw [upsert_ids]
      exact if_pos hc
    rw [ih _ (fun c' hc' => by rw [hids]; exact h c' (List.mem_cons_of_mem _ hc'))]
    exact hids

/-- C6, counterexample: the `part_000` variant of `saveUserDataToSupabase`
deletes every classroom row of the user before inserting — after its push,
the pre-existing remote row `r1` of user `u` is gone from the table
(no surviving row carries its id), refuting "it never deletes existing
remote rows before inserting". -/
theorem claim6_counterexample :
    sampleRow ∈ ([sampleRow] : List CloudClassroomRow)
    ∧ sampleRow.user_id = "u"
    ∧ ((saveUserDataToSupabase_v6 uuidGen storeA "u" [sampleRow]).all
        (fun r => r.id != "r1")) = true := by
  refine ⟨by decide, by decide, by decide⟩

/-- C6, amended: the `app.js` (v7) push writes one row per classroom by
upsert keyed on the classroom's own id (carrying the owner id) and never
deletes existing remote rows — whatever the per-upsert outcomes, every
pre-existing row id survives; under successful upserts each classroom ends
with a row, primary-key uniqueness is preserved, and a repeated push leaves
the table's row ids unchanged (no drops, no duplicates).  The legacy
`part_000` (v6) variant instead deletes all the user's rows and re-inserts
them under remote-assigned ids (see the counterexample). -/
theorem claim6_push_upsert_amended :
    (∀ (env : String → UpsertOutcome) (db : Store) (uid : String) (now : Nat)
       (table : List CloudClassroomRow),
      saveUserDataToSupabase true env db uid now table
        = .ok (pushClassrooms env uid now db.classrooms table))
    ∧ (∀ (env : String → UpsertOutcome) (uid : String) (now : Nat)
        (cs : List Classroom) (table : List CloudClassroomRow)
        (r : CloudClassroomRow), r ∈ table →
        ∃ r' ∈ pushClassrooms env uid now cs table, r'.id = r.id)
    ∧ (∀ (env : String → UpsertOutcome) (uid : String) (now : Nat)
        (cs : List Classroom) (table : List CloudClassroomRow) (c : Classroom),
        (∀ i, env i = .ok) → c ∈ cs →
        ∃ r ∈ pushClassrooms env uid now cs table,
          r.id = c.id ∧ r.user_id = uid)
    ∧ (∀ (env : String → UpsertOutcome) (uid : String) (now : Nat)
        (cs : List Classroom) (table : List CloudClassroomRow),
        (table.map (fun r => r.id)).Nodup →
        ((pushClassrooms env uid now cs table).map (fun r => r.id)).Nodup)
    ∧ (∀ (env : String → UpsertOutcome) (uid : String) (now now2 : Nat)
        (cs : List Classroom) (table : List CloudClassroomRow),
        (∀ i, env i = .ok) →
        (pushClassrooms env uid now2 cs
            (pushClassrooms env uid now cs table)).map (fun r => r.id)
          = (pushClassrooms env uid now cs table).map (fun r => r.id)) := by
  refine ⟨?_, ?_, ?_, ?_, ?_⟩
  · intro env db uid now table
    rw [saveUserDataToSupabase, if_pos rfl]
  · exact pushClassrooms_pres_mem
  · intro env uid now cs table c henv hc
    exact pushClassrooms_writes env uid now cs table c henv hc
  · exact pushClassrooms_nodup
  · intro env uid now now2 cs table henv
    apply pushClassrooms_ids_stable env uid now2 cs _ henv
    intro c hc
    rcases pushClassrooms_writes env uid now cs table c henv hc with ⟨r, hr, hid, _⟩
    exact hid ▸ List.mem_map_of_mem _ hr

/-- C6, witness: the v7 push of the one-classroom sample store onto a table
holding one foreign row, with every upsert succeeding. -/
theorem claim6_push_upsert_amended_witness :
    (saveUserDataToSupabase true okEnv storeA "u" 5 [sampleRow]
      = .ok (pushClassrooms okEnv "u" 5 storeA.classrooms [sampleRow]))
    ∧ (∃ r' ∈ pushClassrooms okEnv "u" 5 storeA.classrooms [sampleRow],
        r'.id = sampleRow.id)
    ∧ (∃ r ∈ pushClassrooms okEnv "u" 5 storeA.classrooms [sampleRow],
        r.id = classroomA.id ∧ r.user_id = "u")
    ∧ ((pushClassrooms okEnv "u" 5 storeA.classrooms [sampleRow]).map
        (fun r => r.id)).Nodup
    ∧ ((pushClassrooms okEnv "u" 6 storeA.classrooms
          (pushClassrooms okEnv "u" 5 storeA.classrooms [sampleRow])).map
            (fun r => r.id)
        = (pushClassrooms okEnv "u" 5 storeA.classrooms [sampleRow]).map
            (fun r => r.id)) :=
  ⟨claim6_push_upsert_amended.1 okEnv storeA "u" 5 [sampleRow],
   claim6_push_upsert_amended.2.1 okEnv "u" 5 storeA.classrooms [sampleRow]
      sampleRow (by decide),
   claim6_push_upsert_amended.2.2.1 okEnv "u" 5 storeA.classrooms [sampleRow]
      classroomA (fun i => rfl) (by decide),
   claim6_push_upsert_amended.2.2.2.1 okEnv "u" 5 storeA.classrooms [sampleRow]
      (by decide),
   claim6_push_upsert_amended.2.2.2.2 okEnv "u" 5 6 storeA.classrooms
      [sampleRow] (fun i => rfl)⟩

end GradeJournal
